import Mathlib

/-!
Verification development for the Global-EV-Infrastructure-Prediction dashboard
(`app.py`).  The data-transform core (group-by aggregation, top-N selection,
equality filtering, K-means clustering, ordinary-least-squares forecasting,
seeded sampling) is shallowly embedded as executable Lean definitions, and the
behavioural properties of the spec are settled against them.

Numeric columns are modelled over `ℚ` (the exact idealisation of the float
arithmetic used by pandas/numpy/sklearn); machine integers in the data are
modelled as `Int`/`Nat`.
-/

/-! ### Data model (§3 of the spec) -/

/-- StationRecord: one row of `clean_ev_stations.csv` (`stations` table). -/
structure StationRow where
  name : String
  country_code : String
  latitude : ℚ
  longitude : ℚ
  is_fast_dc : Bool
deriving DecidableEq, Repr

/-- ModelRecord: one row of `clean_ev_models.csv` (`models` table); only the
columns the transforms touch (`make`, `first_year`) are modelled. -/
structure ModelRow where
  make : String
  first_year : Int
deriving DecidableEq, Repr

/-- CountrySummary: one row of `clean_country_summary.csv`
(`country_summary` table). -/
structure CountryRow where
  country_code : String
  stations : ℚ
deriving DecidableEq, Repr

/-- WorldSummary: one row of `clean_world_summary.csv` (`world_summary`
table); row order is the implicit time axis. -/
structure WorldRow where
  count : ℚ
deriving DecidableEq, Repr

/-! ### Aggregator

`app.py` line 65: `stations.groupby("country_code").size().reset_index(...)`
and line 177: `models.groupby("first_year").size().reset_index(...)`.
pandas `groupby` with the default `sort=True` returns one row per distinct
key, keys sorted ascending, each with the number of input rows having that
key. -/

/-- Embedding of `df.groupby(key).size()`: the distinct key values of `l`,
sorted ascending, each paired with the number of rows of `l` sharing it. -/
def groupSize {α κ : Type} [DecidableEq κ] [LinearOrder κ]
    (l : List α) (key : α → κ) : List (κ × Nat) :=
  (((l.map key).dedup).mergeSort (fun a b => decide (a ≤ b))).map
    (fun k => (k, (l.filter (fun r => decide (key r = k))).length))

/-- Line 65: `stations.groupby("country_code").size()` — station counts per
country. -/
def stationsCount (stations : List StationRow) : List (String × Nat) :=
  groupSize stations (fun r => r.country_code)

/-- Line 177: `models.groupby("first_year").size()` — the `growth` table:
model counts per launch year. -/
def growthSeries (models : List ModelRow) : List (Int × Nat) :=
  groupSize models (fun r => r.first_year)

/-! ### Top-N selection

`app.py` line 81: `stations_count.sort_values(by="station_count",
ascending=False).head(10)`.  pandas `sort_values` computes a numpy `argsort`
of the column in ascending order and, for `ascending=False`, reverses the
resulting indexer (`nargsort` in `pandas/core/sorting.py`).  The default
kind (quicksort) is numpy introsort, which on the short arrays relevant
here coincides with a stable insertion sort; the embedding therefore uses a
stable ascending sort followed by reversal.  (For long arrays numpy quicksort
leaves tie order unspecified; the length and ordering facts proved below hold
for any permutation-correct sort kind.) -/

/-- Embedding of `df.sort_values(by=count, ascending=False)`: stable
ascending sort on the count column, then reversal of the order. -/
def sortValuesDesc {κ : Type} (l : List (κ × Nat)) : List (κ × Nat) :=
  (l.mergeSort (fun a b => decide (a.2 ≤ b.2))).reverse

/-- Line 81: descending sort on the count column followed by `.head(10)`. -/
def top10 {κ : Type} (l : List (κ × Nat)) : List (κ × Nat) :=
  (sortValuesDesc l).take 10

/-! ### Filter Engine

`app.py` lines 117-124: `filtered = models.copy()`, then a boolean-mask row
selection for each selector that is not the sentinel `"All"`.  The sentinel
is modelled as `none`. -/

/-- Embedding of the EV-Models filter chain: start from the full table and
apply the manufacturer equality mask, then the launch-year equality mask,
each only when its selector is active. -/
def filteredModels (models : List ModelRow)
    (brand : Option String) (year : Option Int) : List ModelRow :=
  let f0 := models
  let f1 := match brand with
    | none => f0
    | some b => f0.filter (fun r => decide (r.make = b))
  match year with
  | none => f1
  | some y => f1.filter (fun r => decide (r.first_year = y))

/-! ### Cluster Analyzer

`app.py` lines 154-155: `KMeans(n_clusters=3, random_state=42)` followed by
`fit_predict(infra[["stations"]])`.  sklearn first validates
`n_samples >= n_clusters` and raises `ValueError` otherwise; it then runs
Lloyd iterations (`max_iter=300` by default) from a seeded initialisation and
labels each sample with the index of its nearest centroid (first index on
ties, as `numpy.argmin` does).  The seeded k-means++ initialisation is
abstracted as a deterministic function of the input (the first `k` samples);
the validation, the bounded Lloyd refinement, the nearest-centroid labelling
and the output shape follow sklearn. -/

/-- Squared Euclidean distance on the single feature. -/
def sqDist (a b : ℚ) : ℚ := (a - b) ^ 2

/-- Tail of `numpy.argmin` over the centroid list: scans the remaining
centroids (the next one having index `i`), keeping the first index `best`
attaining the least squared distance `bestD` seen so far. -/
def argminGo (x : ℚ) : List ℚ → Nat → Nat → ℚ → Nat
  | [], _, best, _ => best
  | c :: rest, i, best, bestD =>
    if sqDist x c < bestD then argminGo x rest (i + 1) i (sqDist x c)
    else argminGo x rest (i + 1) best bestD

/-- Index of the centroid nearest to `x` (first index on ties); `0` on an
empty centroid list (never reached: `k = 3 > 0`). -/
def argminIdx (x : ℚ) (cs : List ℚ) : Nat :=
  match cs with
  | [] => 0
  | c :: rest => argminGo x rest 1 0 (sqDist x c)

/-- One Lloyd update: each centroid moves to the mean of the samples
currently assigned to it; a centroid whose cluster is empty is kept. -/
def updateCentroids (data : List ℚ) (cs : List ℚ) : List ℚ :=
  cs.enum.map (fun jc =>
    let members := data.filter (fun p => decide (argminIdx p cs = jc.1))
    if members.length = 0 then jc.2 else members.sum / members.length)

/-- Lloyd iteration with fuel (sklearn `max_iter=300`), stopping early once
the centroids are unchanged (sklearn convergence test). -/
def lloyd (data : List ℚ) : Nat → List ℚ → List ℚ
  | 0, cs => cs
  | fuel + 1, cs =>
    let cs2 := updateCentroids data cs
    if cs2 = cs then cs else lloyd data fuel cs2

/-- Embedding of `KMeans(n_clusters=k, random_state=42).fit_predict(data)`:
`ValueError` when there are fewer samples than clusters, otherwise the list
of nearest-centroid labels (one per sample, in sample order) for the
centroids reached by at most 300 Lloyd iterations from the deterministic
seeded initialisation. -/
def kmeansFitPredict (k : Nat) (data : List ℚ) : Except String (List Nat) :=
  if data.length < k then
    Except.error "n_samples should be greater than or equal to n_clusters"
  else
    let cs := lloyd data 300 (data.take k)
    Except.ok (data.map (fun p => argminIdx p cs))

/-! ### Forecaster

`app.py` lines 178-182 and 197-201: `LinearRegression().fit(X, y)` then
`predict` over a fresh contiguous range.  sklearn `LinearRegression`
(`fit_intercept=True`) centres `X` and `y`, solves the centred least-squares
problem by `lstsq` — in one dimension the slope `Sxy / Sxx`, with the
least-norm solution `0` when the centred column is all zeros (`Sxx = 0`) —
and sets the intercept to `ȳ - slope · x̄`.  Fitting zero samples raises
`ValueError` (modelled as `none`).  The float arithmetic is idealised over
`ℚ`. -/

/-- Mean of the x column. -/
def xbar (l : List (ℚ × ℚ)) : ℚ := (l.map Prod.fst).sum / l.length

/-- Mean of the y column. -/
def ybar (l : List (ℚ × ℚ)) : ℚ := (l.map Prod.snd).sum / l.length

/-- Centred second moment of x: `Σ (xᵢ - x̄)²`. -/
def sxx (l : List (ℚ × ℚ)) : ℚ := (l.map (fun p => (p.1 - xbar l) ^ 2)).sum

/-- Centred cross moment: `Σ (xᵢ - x̄)(yᵢ - ȳ)`. -/
def sxy (l : List (ℚ × ℚ)) : ℚ :=
  (l.map (fun p => (p.1 - xbar l) * (p.2 - ybar l))).sum

/-- Embedding of `LinearRegression().fit`: `none` on an empty series
(sklearn raises), otherwise `some (slope, intercept)` of the ordinary
least-squares line, with the least-norm slope `0` when x has zero
variance. -/
def linfit (l : List (ℚ × ℚ)) : Option (ℚ × ℚ) :=
  if l.isEmpty then none
  else
    let m := if sxx l = 0 then 0 else sxy l / sxx l
    some (m, ybar l - m * xbar l)

/-- Embedding of `model.predict` at a single x value. -/
def predictAt (l : List (ℚ × ℚ)) (x : ℚ) : Option ℚ :=
  (linfit l).map (fun mb => mb.1 * x + mb.2)

/-- Line 181: `range(growth["first_year"].min(), 2030)` — the x axis of the
model-growth forecast, a contiguous integer range. -/
def futureYears (m : Int) : List Int :=
  (List.range (2030 - m).toNat).map (fun i : Nat => m + (i : Int))

/-- Line 181: `growth["first_year"].min()` — pandas `Series.min` over the
group keys of the growth table. -/
def minFirstYear (models : List ModelRow) : Option Int :=
  ((growthSeries models).map Prod.fst).min?

/-- Line 200: `range(len(world_summary) + 5)` — the x axis of the
world-summary forecast. -/
def futureIdx (n : Nat) : List Nat := List.range (n + 5)

/-! ### Station sampling

`app.py` line 93: `stations.sample(n=min(5000, len(stations)),
random_state=42)`.  pandas `sample` raises `ValueError` when asked for more
rows (without replacement) than the table holds, and otherwise returns
exactly `n` rows chosen by the seeded generator; the seeded row choice is
abstracted as a deterministic selection of `n` rows, which is all the claims
about this call depend on. -/

/-- Embedding of the line-93 sampling call, including the pandas sample-size
validation. -/
def sampleStations (stations : List StationRow) : Except String (List StationRow) :=
  let n := min 5000 stations.length
  if stations.length < n then
    Except.error "Cannot take a larger sample than population when replace is False"
  else
    Except.ok (stations.take n)

/-! ### View execution over a heap of dataframes

Claim C9 is about Python-level aliasing: whether any view computation
mutates the four loaded source tables.  The embedding gives each pandas
DataFrame object a heap cell; the four source tables occupy cells 0-3 in
load order (`app.py` line 16).  `df.copy()` and every pandas operation that
returns a new frame (group-by, boolean-mask indexing, `pd.DataFrame(...)`)
allocate a fresh cell; in-place column assignment `df[col] = ...` is
`List.set` at the cell the variable is bound to.  The claim holds exactly
because the only in-place writes in the source hit freshly allocated
cells. -/

/-- A pandas DataFrame value living in a heap cell. -/
inductive PdVal where
  | stationsT : List StationRow → PdVal
  | modelsT : List ModelRow → PdVal
  | countryT : List CountryRow → PdVal
  | countryClT : List (CountryRow × Nat) → PdVal
  | worldT : List WorldRow → PdVal
  | pairsT : List (String × Nat) → PdVal
  | growthT : List (Int × Nat) → PdVal
  | yearsT : List Int → PdVal
  | forecastT : List (Int × ℚ) → PdVal
  | idxT : List Nat → PdVal
  | idxForecastT : List (Nat × ℚ) → PdVal
deriving DecidableEq

/-- Heap after `load_data()` (line 16): cells 0-3 hold the four source
tables. -/
def initHeap (s : List StationRow) (m : List ModelRow)
    (c : List CountryRow) (w : List WorldRow) : List PdVal :=
  [PdVal.stationsT s, PdVal.modelsT m, PdVal.countryT c, PdVal.worldT w]

/-- Projection of a heap cell expected to hold the country-summary table. -/
def asCountryT : PdVal → List CountryRow
  | PdVal.countryT c => c
  | _ => []

/-- Projection of a heap cell expected to hold the models table. -/
def asModelsT : PdVal → List ModelRow
  | PdVal.modelsT m => m
  | _ => []

/-- Lines 65 and 81 (Global Insights view): `stations_count = stations
.groupby(...).size().reset_index(...)` allocates a new frame from cell 0;
`top10 = stations_count.sort_values(...).head(10)` allocates another.  No
in-place write occurs. -/
def aggViewExec (h : List PdVal) : List PdVal :=
  let sc := match h.getD 0 (PdVal.stationsT []) with
    | PdVal.stationsT s => stationsCount s
    | _ => []
  let h1 := h ++ [PdVal.pairsT sc]
  h1 ++ [PdVal.pairsT (top10 sc)]

/-- Lines 117-124 (EV Models view): `filtered = models.copy()` allocates a
copy of cell 1; each boolean-mask selection returns a new frame that the
name `filtered` is rebound to.  No in-place write occurs. -/
def filterViewExec (h : List PdVal)
    (brand : Option String) (year : Option Int) : List PdVal :=
  let h1 := h ++ [PdVal.modelsT (asModelsT (h.getD 1 (PdVal.modelsT [])))]
  let f := asModelsT (h1.getD h.length (PdVal.modelsT []))
  h1 ++ [PdVal.modelsT (filteredModels f brand year)]

/-- A country table with the `cluster` column appended (line 155 left-hand
side). -/
def addClusterColumn (c : List CountryRow) (labels : List Nat) :
    List (CountryRow × Nat) :=
  c.zip labels

/-- Lines 153-155 (clustering view): `infra = country_summary.copy()`
allocates a copy of cell 2; `infra["cluster"] = kmeans.fit_predict(...)` is
an in-place write — to the freshly allocated cell, not to cell 2. -/
def clusterViewExec (h : List PdVal) : List PdVal :=
  let infraLoc := h.length
  let h1 := h ++ [PdVal.countryT (asCountryT (h.getD 2 (PdVal.countryT [])))]
  let infra := asCountryT (h1.getD infraLoc (PdVal.countryT []))
  let labels := match kmeansFitPredict 3 (infra.map (fun r => r.stations)) with
    | Except.ok ls => ls
    | Except.error _ => []
  h1.set infraLoc (PdVal.countryClT (addClusterColumn infra labels))

/-- Lines 177-182 (model-growth forecast view): `growth = models.groupby(...)
.size().reset_index(...)` allocates a new frame from cell 1;
`future_years = pd.DataFrame({...})` allocates another; `future_years
["prediction"] = model.predict(...)` writes in place — to that fresh cell. -/
def forecastViewExec (h : List PdVal) : List PdVal :=
  let g := growthSeries (asModelsT (h.getD 1 (PdVal.modelsT [])))
  let series := g.map (fun p => ((p.1 : ℚ), (p.2 : ℚ)))
  let h1 := h ++ [PdVal.growthT g]
  let xs := match (g.map Prod.fst).min? with
    | some m => futureYears m
    | none => []
  let fyLoc := h1.length
  let h2 := h1 ++ [PdVal.yearsT xs]
  h2.set fyLoc
    (PdVal.forecastT (xs.map (fun x => (x, (predictAt series (x : ℚ)).getD 0))))

/-- Lines 197-201 (world-summary forecast view): the x axis is the row index
of cell 3; `future_idx = pd.DataFrame({...})` allocates a fresh frame and
`future_idx["prediction"] = model2.predict(...)` writes in place to it. -/
def worldForecastViewExec (h : List PdVal) : List PdVal :=
  let w := match h.getD 3 (PdVal.worldT []) with
    | PdVal.worldT w => w
    | _ => []
  let series := (w.enum).map (fun iw => ((iw.1 : ℚ), iw.2.count))
  let xs := futureIdx w.length
  let fiLoc := h.length
  let h1 := h ++ [PdVal.idxT xs]
  h1.set fiLoc
    (PdVal.idxForecastT (xs.map (fun i => (i, (predictAt series (i : ℚ)).getD 0))))

/-! ### Theorems -/

/-- C1: the claim asks that every degenerate forecast series (fewer than 2
distinct x-values) be handled — by an insufficient-data report or by a flat
prediction at the single observed y — and never crash.  The code at lines
177-182/197-201 has no such handling: on a one-row series the underlying
least-squares routine happens to return the flat prediction, but on an
empty series the fit raises (modelled as `none`), so the degenerate case
does crash rather than being handled. -/
theorem degenerate_forecast_behaviour :
    linfit ([] : List (ℚ × ℚ)) = none ∧
    ∀ (x y t : ℚ), predictAt [(x, y)] t = some y := by
  constructor
  · rfl
  · intro x y t
    have hx : xbar [(x, y)] = x := by simp [xbar]
    have hy : ybar [(x, y)] = y := by simp [ybar]
    have hs : sxx [(x, y)] = 0 := by simp [sxx, hx]
    simp [predictAt, linfit, hs, hy, hx]

/-- C6: for every input table and key-extraction function the per-key counts
of the group-by aggregation sum to the total row count, and a zero-row input
yields an empty result rather than an error. -/
theorem aggregator_counts_sum_to_length {α κ : Type} [DecidableEq κ] [LinearOrder κ]
    (l : List α) (key : α → κ) :
    ((groupSize l key).map Prod.snd).sum = l.length ∧ groupSize ([] : List α) key = [] := by
  constructor
  · unfold groupSize
    rw [List.map_map]
    have h1 : (Prod.snd ∘ fun k : κ => (k, (l.filter (fun r => decide (key r = k))).length))
        = fun k : κ => (l.filter (fun r => decide (key r = k))).length := rfl
    rw [h1]
    have hperm := (List.mergeSort_perm ((l.map key).dedup) (fun a b => decide (a ≤ b))).map
      (fun k : κ => (l.filter (fun r => decide (key r = k))).length)
    rw [hperm.sum_eq]
    have h2 : ∀ k ∈ (l.map key).dedup,
        (l.filter (fun r => decide (key r = k))).length = (l.map key).count k := by
      intro k _
      rw [List.count_eq_countP, List.countP_map, ← List.countP_eq_length_filter]
      rfl
    rw [List.map_congr_left h2]
    rw [List.sum_map_count_dedup_eq_length, List.length_map]
  · simp [groupSize]

/-- C7: with both selectors at the sentinel value the Filter Engine returns
the model table unchanged in content and order, and every filter application
yields a sublist of the input, preserving the relative order of the
surviving rows. -/
theorem filter_identity_and_order (ms : List ModelRow) (b : Option String) (y : Option Int) :
    filteredModels ms none none = ms ∧ (filteredModels ms b y).Sublist ms := by
  refine ⟨rfl, ?_⟩
  unfold filteredModels
  cases b with
  | none =>
    cases y with
    | none => exact List.Sublist.refl ms
    | some yv => exact List.filter_sublist ms
  | some bv =>
    cases y with
    | none => exact List.filter_sublist ms
    | some yv => exact (List.filter_sublist _).trans (List.filter_sublist ms)

/-- C10: the station-locations sampling call succeeds on every table size
and returns exactly `min 5000 n` rows, because the requested sample size is
capped at the table length. -/
theorem sampling_always_succeeds (s : List StationRow) :
    ∃ l, sampleStations s = Except.ok l ∧ l.length = min 5000 s.length := by
  refine ⟨s.take (min 5000 s.length), ?_, ?_⟩
  · simp only [sampleStations]
    rw [if_neg (Nat.not_lt.mpr (Nat.min_le_right 5000 s.length))]
  · rw [List.length_take]
    omega

unseal List.merge List.mergeSort in
/-- C2 counterexample: ties are not returned in first-encountered key order.
With the equal-count input `[(A,5), (B,5)]` the pandas descending sort
(reversal of a stable ascending argsort) returns `[(B,5), (A,5)]`, the
reverse of the first-encountered order the claim asserts. -/
theorem top10_tie_order_counterexample :
    top10 [("A", 5), ("B", 5)] = [("B", 5), ("A", 5)] ∧
    top10 [("A", 5), ("B", 5)] ≠ [("A", 5), ("B", 5)] := by
  constructor
  · rfl
  · decide

/-- C2 (amended): for every table of (key, count) pairs with distinct keys
the top-10 selection returns min(10, number of distinct keys) pairs sorted
non-increasing by count; the tie order among equal counts is not the
first-encountered order (see the counterexample). -/
theorem top10_length_and_sorted {κ : Type} [DecidableEq κ] (l : List (κ × Nat))
    (h : (l.map Prod.fst).Nodup) :
    (top10 l).length = min 10 ((l.map Prod.fst).dedup.length) ∧
    (top10 l).Pairwise (fun a b => b.2 ≤ a.2) := by
  constructor
  · rw [h.dedup, List.length_map]
    unfold top10 sortValuesDesc
    rw [List.length_take, List.length_reverse, List.length_mergeSort]
  · unfold top10 sortValuesDesc
    apply List.Pairwise.sublist (List.take_sublist 10 _)
    rw [List.pairwise_reverse]
    have hs : (l.mergeSort (fun a b => decide (a.2 ≤ b.2))).Pairwise
        (fun a b : κ × Nat => decide (a.2 ≤ b.2) = true) := by
      apply List.sorted_mergeSort
      · intro p q r hpq hqr
        simp only [decide_eq_true_eq] at *
        omega
      · intro p q
        simp only [Bool.or_eq_true, decide_eq_true_eq]
        omega
    exact hs.imp (fun hab => by simpa using hab)

/-- C2 witness: the amended top-10 property at a concrete two-row table. -/
theorem top10_length_and_sorted_witness :
    (top10 [("US", 100), ("DE", 50)]).length
        = min 10 (([("US", 100), ("DE", 50)].map Prod.fst).dedup.length) ∧
    (top10 [("US", 100), ("DE", 50)]).Pairwise (fun a b => b.2 ≤ a.2) :=
  top10_length_and_sorted [("US", 100), ("DE", 50)] (by decide)

/-- Helper: the argmin scan returns an index below the total number of
centroids, provided the best index so far already does. -/
theorem argminGo_lt (x : ℚ) :
    ∀ (rest : List ℚ) (i best : Nat) (d : ℚ), best < i →
      argminGo x rest i best d < i + rest.length := by
  intro rest
  induction rest with
  | nil => intro i best d h; simpa [argminGo] using h
  | cons c cs ih =>
    intro i best d h
    simp only [argminGo, List.length_cons]
    split
    · have := ih (i + 1) i (sqDist x c) (by omega)
      omega
    · have := ih (i + 1) best d (by omega)
      omega

/-- Helper: the nearest-centroid index is always in range for a nonempty
centroid list. -/
theorem argminIdx_lt (x : ℚ) (cs : List ℚ) (h : cs ≠ []) :
    argminIdx x cs < cs.length := by
  cases cs with
  | nil => exact absurd rfl h
  | cons c rest =>
    simp only [argminIdx, List.length_cons]
    have := argminGo_lt x rest 1 0 (sqDist x c) (by omega)
    omega

/-- Helper: a Lloyd update keeps the number of centroids. -/
theorem updateCentroids_length (data cs : List ℚ) :
    (updateCentroids data cs).length = cs.length := by
  simp [updateCentroids]

/-- Helper: Lloyd iteration keeps the number of centroids. -/
theorem lloyd_length (data : List ℚ) :
    ∀ (fuel : Nat) (cs : List ℚ), (lloyd data fuel cs).length = cs.length := by
  intro fuel
  induction fuel with
  | zero => intro cs; rfl
  | succ n ih =>
    intro cs
    simp only [lloyd]
    split
    · rfl
    · rw [ih (updateCentroids data cs), updateCentroids_length]

/-- Helper: with at least 3 samples, `fit_predict` succeeds and labels every
sample, in order, with a cluster id below 3. -/
theorem kmeans_ok_spec (data : List ℚ) (h : 3 ≤ data.length) :
    ∃ ls, kmeansFitPredict 3 data = Except.ok ls ∧ ls.length = data.length ∧
      ∀ lab ∈ ls, lab < 3 := by
  unfold kmeansFitPredict
  rw [if_neg (by omega)]
  refine ⟨_, rfl, by simp, ?_⟩
  intro lab hlab
  rw [List.mem_map] at hlab
  obtain ⟨p, hp, rfl⟩ := hlab
  have hcs : (lloyd data 300 (data.take 3)).length = 3 := by
    rw [lloyd_length, List.length_take]
    omega
  have hne : lloyd data 300 (data.take 3) ≠ [] := by
    intro hh
    rw [hh] at hcs
    simp at hcs
  have := argminIdx_lt p (lloyd data 300 (data.take 3)) hne
  omega

/-- C3 (amended): the K-means call completes without error on every
country-summary input with at least 3 rows, however few distinct
station-count values it has; with fewer than 3 rows sklearn itself raises,
so the no-crash guarantee needs the row-count hypothesis. -/
theorem kmeans_completes_with_enough_rows (data : List ℚ) (h : 3 ≤ data.length) :
    ∃ ls, kmeansFitPredict 3 data = Except.ok ls := by
  obtain ⟨ls, hok, _, _⟩ := kmeans_ok_spec data h
  exact ⟨ls, hok⟩

/-- C3 witness: the clustering call completes on a 3-row input with a single
distinct station-count value. -/
theorem kmeans_completes_with_enough_rows_witness :
    ∃ ls, kmeansFitPredict 3 [(5 : ℚ), 5, 5] = Except.ok ls :=
  kmeans_completes_with_enough_rows [(5 : ℚ), 5, 5] (by decide)

/-- C3 counterexample: a 2-row table has fewer than 3 distinct station-count
values, yet the K-means call raises the sklearn sample-count ValueError
instead of completing. -/
theorem kmeans_raises_on_two_rows :
    kmeansFitPredict 3 [(5 : ℚ), 5]
      = Except.error "n_samples should be greater than or equal to n_clusters" := rfl

/-- C5 (amended): on every country-summary input with at least 3 rows the
cluster analyzer assigns exactly one id per input row (positionally, in
input order), all ids are below 3 so at most 3 distinct ids occur, and the
embedding is a pure function of the input and the fixed seed, so re-running
is deterministic; inputs with fewer than 3 rows raise instead. -/
theorem kmeans_assignment_shape (data : List ℚ) (h : 3 ≤ data.length) :
    ∃ ls, kmeansFitPredict 3 data = Except.ok ls ∧ ls.length = data.length ∧
      (∀ lab ∈ ls, lab < 3) ∧ ls.toFinset.card ≤ 3 := by
  obtain ⟨ls, hok, hlen, hbd⟩ := kmeans_ok_spec data h
  refine ⟨ls, hok, hlen, hbd, ?_⟩
  have hsub : ls.toFinset ⊆ Finset.range 3 := by
    intro x hx
    rw [List.mem_toFinset] at hx
    rw [Finset.mem_range]
    exact hbd x hx
  calc ls.toFinset.card ≤ (Finset.range 3).card := Finset.card_le_card hsub
    _ = 3 := Finset.card_range 3

/-- C5 witness: the assignment-shape property at a concrete 4-row input. -/
theorem kmeans_assignment_shape_witness :
    ∃ ls, kmeansFitPredict 3 [(1 : ℚ), 2, 50, 51] = Except.ok ls ∧
      ls.length = ([(1 : ℚ), 2, 50, 51] : List ℚ).length ∧
      (∀ lab ∈ ls, lab < 3) ∧ ls.toFinset.card ≤ 3 :=
  kmeans_assignment_shape [(1 : ℚ), 2, 50, 51] (by decide)

/-- C5 counterexample: on a 2-row country-summary input no row receives a
cluster id — the call raises — so the claim does not hold for every
input. -/
theorem kmeans_two_rows_no_assignment :
    ¬ ∃ ls, kmeansFitPredict 3 [(1 : ℚ), 2] = Except.ok ls := by
  intro h
  obtain ⟨ls, hls⟩ := h
  have hh : kmeansFitPredict 3 [(1 : ℚ), 2]
      = Except.error "n_samples should be greater than or equal to n_clusters" := rfl
  rw [hh] at hls
  simp at hls

/-- C4: the model-growth forecast x axis is exactly the contiguous integer
range from the minimum observed launch year up to but excluding 2030, and
the world-summary forecast x axis is the contiguous index range `0..n+4`,
whose last element is 5 periods past the last observed row index `n-1`. -/
theorem forecast_axis_ranges (ms : List ModelRow) (hne : ms ≠ []) (n : Nat) :
    (∃ m, minFirstYear ms = some m ∧
       m ∈ ms.map (fun r => r.first_year) ∧
       (∀ y ∈ ms.map (fun r => r.first_year), m ≤ y) ∧
       (∀ y : Int, y ∈ futureYears m ↔ m ≤ y ∧ y < 2030) ∧
       (futureYears m).Pairwise (fun a b => a < b)) ∧
    ((futureIdx n).length = n + 5 ∧ (∀ i : Nat, i ∈ futureIdx n ↔ i < n + 5) ∧
       (futureIdx n).getLast? = some (n + 4)) := by
  constructor
  · have hkeys : (growthSeries ms).map Prod.fst
        = ((ms.map (fun r => r.first_year)).dedup).mergeSort (fun a b => decide (a ≤ b)) := by
      unfold growthSeries groupSize
      rw [List.map_map]
      exact List.map_id _
    have hmemkeys : ∀ y : Int,
        y ∈ (growthSeries ms).map Prod.fst ↔ y ∈ ms.map (fun r => r.first_year) := by
      intro y
      rw [hkeys, List.mem_mergeSort, List.mem_dedup]
    have hkne : (growthSeries ms).map Prod.fst ≠ [] := by
      rw [hkeys]
      intro hh
      have hperm := List.mergeSort_perm ((ms.map (fun r => r.first_year)).dedup)
        (fun a b => decide (a ≤ b))
      rw [hh] at hperm
      have hd := hperm.symm.eq_nil
      rw [List.dedup_eq_nil, List.map_eq_nil_iff] at hd
      exact hne hd
    cases hk : (growthSeries ms).map Prod.fst with
    | nil => exact absurd hk hkne
    | cons k rest =>
      haveI : Std.Antisymm ((· : Int) ≤ ·) := ⟨fun h1 h2 => le_antisymm h1 h2⟩
      have hmin : (k :: rest).min? = some (rest.foldl min k) := rfl
      have hprop := (List.min?_eq_some_iff (fun a => le_refl a)
        (fun a b => min_choice a b) (fun a b c => le_min_iff)).mp hmin
      refine ⟨rest.foldl min k, ?_, ?_, ?_, ?_, ?_⟩
      · unfold minFirstYear
        rw [hk]
        exact hmin
      · rw [← hmemkeys, hk]
        exact hprop.1
      · intro y hy
        exact hprop.2 y (by rw [← hk, hmemkeys]; exact hy)
      · intro y
        unfold futureYears
        rw [List.mem_map]
        constructor
        · intro hy
          obtain ⟨i, hi, rfl⟩ := hy
          rw [List.mem_range] at hi
          omega
        · intro hy
          refine ⟨(y - rest.foldl min k).toNat, ?_, ?_⟩
          · rw [List.mem_range]
            omega
          · omega
      · unfold futureYears
        rw [List.pairwise_map]
        refine (List.pairwise_lt_range _).imp ?_
        intro i j h
        omega
  · refine ⟨by simp [futureIdx], fun i => by simp [futureIdx], ?_⟩
    have h54 : n + 5 - 1 = n + 4 := by omega
    simp [futureIdx, List.getLast?_range, h54]

/-- C4 witness: the forecast-range property at a one-row models table and a
world summary of 2 rows. -/
theorem forecast_axis_ranges_witness :
    (∃ m, minFirstYear [({ make := "A", first_year := 2028 } : ModelRow)] = some m ∧
       m ∈ [({ make := "A", first_year := 2028 } : ModelRow)].map (fun r => r.first_year) ∧
       (∀ y ∈ [({ make := "A", first_year := 2028 } : ModelRow)].map (fun r => r.first_year),
          m ≤ y) ∧
       (∀ y : Int, y ∈ futureYears m ↔ m ≤ y ∧ y < 2030) ∧
       (futureYears m).Pairwise (fun a b => a < b)) ∧
    ((futureIdx 2).length = 2 + 5 ∧ (∀ i : Nat, i ∈ futureIdx 2 ↔ i < 2 + 5) ∧
       (futureIdx 2).getLast? = some (2 + 4)) :=
  forecast_axis_ranges [{ make := "A", first_year := 2028 }] (List.cons_ne_nil _ _) 2

/-- Helper: pulling a constant factor out of a mapped sum. -/
theorem sum_map_mul_left_q (c : ℚ) (g : ℚ × ℚ → ℚ) (L : List (ℚ × ℚ)) :
    (L.map (fun p => c * g p)).sum = c * (L.map g).sum := by
  induction L with
  | nil => simp
  | cons p t ih =>
    simp only [List.map_cons, List.sum_cons, ih]
    ring

/-- Helper: the sum of an affine image of the x column. -/
theorem sum_map_affine (a b : ℚ) (L : List (ℚ × ℚ)) :
    (L.map (fun p => a * p.1 + b)).sum = a * (L.map Prod.fst).sum + (L.length : ℚ) * b := by
  induction L with
  | nil => simp
  | cons p t ih =>
    simp only [List.map_cons, List.sum_cons, ih, List.length_cons]
    push_cast
    ring

/-- C8 (amended): on every exactly collinear series with at least two
distinct x-values, the least-squares fit recovers the exact slope and
intercept — for the example series x = 2018, 2019, 2020 with y = 10, 20, 30
the intercept is -20170, not the -20190 stated in the claim — and
predicting at any already-observed x reproduces that x's observed y
exactly. -/
theorem ols_collinear_exact (l : List (ℚ × ℚ)) (a b : ℚ)
    (hcol : ∀ p ∈ l, p.2 = a * p.1 + b)
    (hx : ∃ p ∈ l, ∃ q ∈ l, p.1 ≠ q.1) :
    linfit l = some (a, b) ∧ ∀ p ∈ l, predictAt l p.1 = some p.2 := by
  obtain ⟨p0, hp0, q0, hq0, hpq⟩ := hx
  have hlne : l ≠ [] := by
    intro hh
    rw [hh] at hp0
    exact List.not_mem_nil p0 hp0
  have hn : (l.length : ℚ) ≠ 0 := by
    have hz : l.length ≠ 0 := by
      intro hh
      exact hlne (List.length_eq_zero.mp hh)
    exact_mod_cast hz
  have hsnd : l.map Prod.snd = l.map (fun p => a * p.1 + b) :=
    List.map_congr_left (fun p hp => hcol p hp)
  have hyx : ybar l = a * xbar l + b := by
    rw [ybar, hsnd, sum_map_affine, xbar]
    field_simp
    ring
  have hcent : ∀ p ∈ l, p.2 - ybar l = a * (p.1 - xbar l) := by
    intro p hp
    rw [hcol p hp, hyx]
    ring
  have hsxy : sxy l = a * sxx l := by
    rw [sxy, sxx, ← sum_map_mul_left_q a (fun p => (p.1 - xbar l) ^ 2) l]
    apply congrArg
    apply List.map_congr_left
    intro p hp
    rw [hcent p hp]
    ring
  have hsxxpos : 0 < sxx l := by
    obtain ⟨r, hr, hrne⟩ : ∃ r ∈ l, r.1 ≠ xbar l := by
      by_cases hc : p0.1 = xbar l
      · refine ⟨q0, hq0, ?_⟩
        intro hq
        exact hpq (hc.trans hq.symm)
      · exact ⟨p0, hp0, hc⟩
    have hterm : 0 < (r.1 - xbar l) ^ 2 :=
      sq_pos_of_ne_zero (sub_ne_zero.mpr hrne)
    have hmem : (r.1 - xbar l) ^ 2 ∈ l.map (fun p => (p.1 - xbar l) ^ 2) :=
      List.mem_map_of_mem _ hr
    have hnonneg : ∀ x ∈ l.map (fun p => (p.1 - xbar l) ^ 2), 0 ≤ x := by
      intro x hxm
      rw [List.mem_map] at hxm
      obtain ⟨p, hp, rfl⟩ := hxm
      positivity
    have hle := List.single_le_sum hnonneg _ hmem
    have hout : sxx l = (l.map (fun p => (p.1 - xbar l) ^ 2)).sum := rfl
    rw [hout]
    exact lt_of_lt_of_le hterm hle
  have hsxxne : sxx l ≠ 0 := ne_of_gt hsxxpos
  have hm : (if sxx l = 0 then (0 : ℚ) else sxy l / sxx l) = a := by
    rw [if_neg hsxxne, hsxy, mul_div_assoc, div_self hsxxne, mul_one]
  have hfit : linfit l = some (a, b) := by
    simp only [linfit]
    rw [if_neg (by simpa using hlne), hm, hyx]
    simp only [Option.some.injEq, Prod.mk.injEq]
    exact ⟨trivial, by ring⟩
  refine ⟨hfit, ?_⟩
  intro p hp
  unfold predictAt
  rw [hfit]
  simp [hcol p hp]

/-- Helper: evaluation of the least-squares fit on the example series of the
claim; the exact intercept is -20170. -/
theorem linfit_example_eval :
    linfit [((2018 : ℚ), 10), (2019, 20), (2020, 30)] = some (10, -20170) := by
  have hxb : xbar [((2018 : ℚ), 10), (2019, 20), (2020, 30)] = 2019 := by
    norm_num [xbar]
  have hyb : ybar [((2018 : ℚ), 10), (2019, 20), (2020, 30)] = 20 := by
    norm_num [ybar]
  have hsxx : sxx [((2018 : ℚ), 10), (2019, 20), (2020, 30)] = 2 := by
    norm_num [sxx, hxb]
  have hsxy : sxy [((2018 : ℚ), 10), (2019, 20), (2020, 30)] = 20 := by
    norm_num [sxy, hxb, hyb]
  simp only [linfit, hsxx, hsxy, hxb, hyb]
  norm_num

/-- C8 counterexample: on the series x = 2018, 2019, 2020 with
y = 10, 20, 30 the fit is slope 10 and intercept -20170 (so prediction at
2021 is 40 as the claim also says), and the fit is not the claimed
(10, -20190): a line with intercept -20190 through slope 10 would predict
20 at 2021, so the stated intercept is inconsistent with the stated
points and prediction. -/
theorem ols_example_intercept_counterexample :
    linfit [((2018 : ℚ), 10), (2019, 20), (2020, 30)] = some (10, -20170) ∧
    predictAt [((2018 : ℚ), 10), (2019, 20), (2020, 30)] 2021 = some 40 ∧
    linfit [((2018 : ℚ), 10), (2019, 20), (2020, 30)] ≠ some (10, -20190) := by
  refine ⟨linfit_example_eval, ?_, ?_⟩
  · rw [predictAt, linfit_example_eval]
    norm_num
  · rw [linfit_example_eval]
    norm_num

/-- C8 witness: the collinear-recovery theorem applied to the example
series with the corrected intercept. -/
theorem ols_collinear_exact_witness :
    linfit [((2018 : ℚ), 10), (2019, 20), (2020, 30)] = some (10, -20170) ∧
    ∀ p ∈ [((2018 : ℚ), 10), (2019, 20), (2020, 30)],
      predictAt [((2018 : ℚ), 10), (2019, 20), (2020, 30)] p.1 = some p.2 :=
  ols_collinear_exact [((2018 : ℚ), 10), (2019, 20), (2020, 30)] 10 (-20170)
    (by intro p hp; fin_cases hp <;> norm_num)
    ⟨(2018, 10), by simp, (2019, 20), by simp, by norm_num⟩

/-- C9: no view computation mutates the four loaded source tables.  In the
heap model the aggregation, filtering, clustering and both forecast views
only allocate fresh cells and write in place to freshly allocated cells, so
the four source cells are unchanged after each view executes. -/
theorem source_tables_never_mutated (s : List StationRow) (m : List ModelRow)
    (c : List CountryRow) (w : List WorldRow) (brand : Option String) (year : Option Int) :
    (aggViewExec (initHeap s m c w)).take 4 = initHeap s m c w ∧
    (filterViewExec (initHeap s m c w) brand year).take 4 = initHeap s m c w ∧
    (clusterViewExec (initHeap s m c w)).take 4 = initHeap s m c w ∧
    (forecastViewExec (initHeap s m c w)).take 4 = initHeap s m c w ∧
    (worldForecastViewExec (initHeap s m c w)).take 4 = initHeap s m c w :=
  ⟨rfl, rfl, rfl, rfl, rfl⟩
